import Mathlib

/-!
Shallow embedding of the bug_hunter retrieval/synthesis pipeline
(`src/agents/context_retrieval_agent.py`) and the tolerant structured-output
parser (`src/agents/code_parser_agent.py`).

Python strings are modelled by Lean `String` (a wrapper around `List Char`);
Python slicing, `startswith`/`endswith` and `strip` are modelled by the
`py*` helpers below, defined directly over the character list.  Python
`float` relevance scores are modelled by `ℚ`.  Python dictionaries holding
documents are modelled by the `Doc` structure whose fields are `Option`s so
that `dict.get(key, default)` is `Option.getD`.  External collaborators
(the document-index client and the text-generation call) are passed in as
explicit parameters: a call that may raise is an `Except` value.
-/

/-- Model of Python `s[:n]` on strings. -/
def pyTake (n : Nat) (s : String) : String := ⟨s.data.take n⟩

/-- Model of Python `s[n:]` on strings. -/
def pyDrop (n : Nat) (s : String) : String := ⟨s.data.drop n⟩

/-- Model of Python `s[:-n]` (for `0 < n ≤ len(s)`; like the source's
`response[:-3]` it removes the last `n` characters). -/
def pyDropRight (n : Nat) (s : String) : String := ⟨s.data.take (s.data.length - n)⟩

/-- Model of Python `s.startswith(p)`. -/
def pyStartsWith (s p : String) : Bool := s.data.take p.data.length = p.data

/-- Model of Python `s.endswith(p)`. -/
def pyEndsWith (s p : String) : Bool := s.data.drop (s.data.length - p.data.length) = p.data

/-- Whitespace characters stripped by Python `str.strip()`. -/
def isPyWs (c : Char) : Bool :=
  c = ' ' || c = '\t' || c = '\n' || c = '\r' || c = '\x0b' || c = '\x0c'

/-- Model of Python `s.strip()`: remove whitespace from both ends. -/
def pyStrip (s : String) : String :=
  ⟨((s.data.dropWhile isPyWs).reverse.dropWhile isPyWs).reverse⟩

/-- Model of Python `s.split('\n')` (single-character separator split). -/
def pySplitNl : List Char → List (List Char)
  | [] => [[]]
  | c :: rest =>
    if c = '\n' then [] :: pySplitNl rest
    else
      match pySplitNl rest with
      | [] => [[c]]
      | seg :: segs => (c :: seg) :: segs

/-- Number of `'\n'` characters in a string. -/
def countNewlines (s : String) : Nat := (s.data.filter (fun c => c = '\n')).length

/-- A scored document as returned by `DocumentIndexClient.search`
(`mcp_client.search_documents_sync`): a Python dict from which the agent
reads `text` (default `''`) and `score` (default `0`).  A missing key is
`none`. -/
structure Doc where
  text : Option String
  score : Option ℚ
deriving DecidableEq

/-- Model of `result.get('text', '')`. -/
def getText (d : Doc) : String := d.text.getD ""

/-- Model of `result.get('score', 0)`. -/
def getScore (d : Doc) : ℚ := d.score.getD 0

/-- The deduplication key of `_deduplicate_results`: Python hashes
`text[:200]`; the fingerprint is modelled by the 200-character prefix
itself. -/
def fingerprint (d : Doc) : String := pyTake 200 (getText d)

/-- The `seen_texts` loop of `_deduplicate_results`
(`src/agents/context_retrieval_agent.py`, lines 130-139): keep the
first-seen document for each fingerprint. -/
def dedupeAux : List Doc → List String → List Doc
  | [], _ => []
  | r :: rest, seen =>
    if fingerprint r ∈ seen then dedupeAux rest seen
    else r :: dedupeAux rest (fingerprint r :: seen)

/-- Deduplication pass (the spec's `ResultDeduplicator.dedupe`). -/
def dedupe (results : List Doc) : List Doc := dedupeAux results []

/-- Ordering used by `unique.sort(key=lambda x: x.get('score', 0), reverse=True)`:
`a` may precede `b` when `a`'s score is at least `b`'s. -/
def scoreGE (a b : Doc) : Prop := getScore b ≤ getScore a

instance : DecidableRel scoreGE :=
  fun a b => decidable_of_iff (getScore b ≤ getScore a) Iff.rfl

instance : IsTotal Doc scoreGE :=
  ⟨fun a b => (le_total (getScore b) (getScore a)).imp id id⟩

instance : IsTrans Doc scoreGE :=
  ⟨fun _ _ _ hab hbc => le_trans hbc hab⟩

/-- The sort step of `_deduplicate_results` (the spec's `ResultRanker`):
Python `list.sort` is a stable sort; with `reverse=True` it orders by
descending key while preserving the input order of equal keys, which is
exactly stable insertion sort under `scoreGE`. -/
def rank (l : List Doc) : List Doc := l.insertionSort scoreGE

/-- `_deduplicate_results` (`src/agents/context_retrieval_agent.py`,
lines 117-144): dedupe first-wins, then sort by score descending. -/
def _deduplicate_results (results : List Doc) : List Doc := rank (dedupe results)

/-- Replacing a missing score by an explicit score `0` (used to state that a
document missing a score is ranked as if its score were `0`). -/
def withExplicitScore (d : Doc) : Doc := ⟨d.text, some (getScore d)⟩

/-- The sentinel synthesis text returned for an empty document list. -/
def sentinel : String := "No relevant documentation found."

/-- Two-digit zero-padded fractional part used by `formatScore`. -/
def twoFrac (m : Nat) : String := (if m < 10 then "0" else "") ++ toString m

/-- Model of the Python f-string `f"{score:.2f}"` on a rational score:
round to two decimal places and render sign, integer part, and a
two-digit fraction.  (Python rounds floats half-to-even; the tie-breaking
of the rounding does not matter for any property proved here.) -/
def formatScore (q : ℚ) : String :=
  let n : Nat := (round (|q| * 100)).toNat
  (if q < 0 then "-" else "") ++ toString (n / 100) ++ "." ++ twoFrac (n % 100)

/-- One rendered block of `_synthesize_context`:
`f"[Document {i}, relevance: {score:.2f}]\n{text[:300]}..."`. -/
def docBlock (i : Nat) (d : Doc) : String :=
  "[Document " ++ toString i ++ ", relevance: " ++ formatScore (getScore d) ++ "]\n"
    ++ pyTake 300 (getText d) ++ "..."

/-- The `enumerate(top_docs, 1)` loop of `_synthesize_context`. -/
def renderBlocks : Nat → List Doc → List String
  | _, [] => []
  | i, d :: rest => docBlock i d :: renderBlocks (i + 1) rest

/-- Model of Python `sep.join(parts)`. -/
def joinSep (sep : String) : List String → String
  | [] => ""
  | [b] => b
  | b :: rest => b ++ sep ++ joinSep sep rest

/-- `_synthesize_context` (`src/agents/context_retrieval_agent.py`,
lines 146-171). -/
def _synthesize_context (results : List Doc) : String :=
  if results.isEmpty then sentinel
  else joinSep "\n\n" (renderBlocks 1 (results.take 3))

/-- One entry of `bug_info['bugs_found']`: a dict from which the agent reads
`bug_type` (default `''`) and `description` (default `''`). -/
structure BugEntry where
  bug_type : Option String
  description : Option String
deriving DecidableEq

/-- The `bug_info` argument: a dict from which the agent reads `bugs_found`
(default `[]`). -/
structure BugInfo where
  bugs_found : Option (List BugEntry)
deriving DecidableEq

/-- `_generate_search_queries` (`src/agents/context_retrieval_agent.py`,
lines 66-115).  The keyword-extraction collaborator
(`invoke_with_template`) is passed in as `invokeTerms`: `Except.error`
models the call raising (caught and logged in the source), `Except.ok`
models the returned text, which the source appends stripped. -/
def _generate_search_queries (code : String) (bug_info : BugInfo)
    (invokeTerms : Except String String) : List String :=
  let bugs_found := bug_info.bugs_found.getD []
  let queries :=
    (bugs_found.take 3).foldl (fun qs bug =>
      let bug_type := bug.bug_type.getD ""
      let description := bug.description.getD ""
      let qs := if bug_type ≠ "" then qs ++ ["C++ " ++ bug_type, bug_type ++ " bug example"]
                else qs
      if description ≠ "" then qs ++ [pyTake 100 description] else qs) []
  let queries := queries ++ ["C++ common bugs"]
  let queries :=
    match invokeTerms with
    | .ok terms => queries ++ [pyStrip terms]
    | .error _ => queries
  queries.take 5

/-- The dictionary returned by `retrieve_bug_context`. -/
structure RetrievalResult where
  retrieved_documents : List Doc
  synthesized_context : String
  total_documents_found : Nat
deriving DecidableEq

/-- The per-query search loop of `retrieve_bug_context`: each failing call
(`Except.error`) is caught, logged and contributes no documents. -/
def collectResults (search : String → Except String (List Doc)) :
    List String → List Doc → List Doc
  | [], acc => acc
  | q :: qs, acc =>
    match search q with
    | .ok results => collectResults search qs (acc ++ results)
    | .error _ => collectResults search qs acc

/-- `retrieve_bug_context` (`src/agents/context_retrieval_agent.py`,
lines 27-64).  The two external collaborators are explicit parameters:
`invokeTerms` for the keyword-extraction call inside query generation and
`search` for `mcp_client.search_documents_sync`. -/
def retrieve_bug_context (code : String) (bug_info : BugInfo)
    (invokeTerms : Except String String)
    (search : String → Except String (List Doc)) : RetrievalResult :=
  let queries := _generate_search_queries code bug_info invokeTerms
  let all_results := collectResults search queries []
  let unique_results := _deduplicate_results all_results
  let context := _synthesize_context unique_results
  { retrieved_documents := unique_results.take 5
    synthesized_context := context
    total_documents_found := unique_results.length }

/-- JSON values as produced by Python `json.loads`. -/
inductive Json where
  | null
  | bool (b : Bool)
  | num (q : ℚ)
  | str (s : String)
  | arr (elems : List Json)
  | obj (fields : List (String × Json))

/-- JSON whitespace skipped by the decoder (space, tab, newline, return). -/
def isJsonWs (c : Char) : Bool := c = ' ' || c = '\t' || c = '\n' || c = '\r'

/-- Skip JSON whitespace. -/
def skipWs (cs : List Char) : List Char := cs.dropWhile isJsonWs

/-- Value of a single hex digit, if any. -/
def hexVal (c : Char) : Option Nat :=
  if '0' ≤ c ∧ c ≤ '9' then some (c.toNat - 48)
  else if 'a' ≤ c ∧ c ≤ 'f' then some (c.toNat - 87)
  else if 'A' ≤ c ∧ c ≤ 'F' then some (c.toNat - 70)
  else none

/-- JSON short escape sequences. -/
def escChar (c : Char) : Option Char :=
  if c = '"' then some '"'
  else if c = '\\' then some '\\'
  else if c = '/' then some '/'
  else if c = 'b' then some '\x08'
  else if c = 'f' then some '\x0c'
  else if c = 'n' then some '\n'
  else if c = 'r' then some '\r'
  else if c = 't' then some '\t'
  else none

/-- Parse the body of a JSON string after the opening quote, returning the
decoded content and the remaining input; `none` models a decode error
(unterminated string, bad escape, raw control character). -/
def parseStringBody : List Char → Option (List Char × List Char)
  | [] => none
  | c :: cs =>
    if c = '"' then some ([], cs)
    else if c = '\\' then
      match cs with
      | 'u' :: h1 :: h2 :: h3 :: h4 :: cs4 =>
        match hexVal h1, hexVal h2, hexVal h3, hexVal h4 with
        | some a, some b, some d, some e =>
          match parseStringBody cs4 with
          | some (content, rest) => some (Char.ofNat (((a * 16 + b) * 16 + d) * 16 + e) :: content, rest)
          | none => none
        | _, _, _, _ => none
      | e :: cs1 =>
        match escChar e with
        | some ch =>
          match parseStringBody cs1 with
          | some (content, rest) => some (ch :: content, rest)
          | none => none
        | none => none
      | [] => none
    else if c.toNat < 32 then none
    else
      match parseStringBody cs with
      | some (content, rest) => some (c :: content, rest)
      | none => none

/-- Numeric value of a digit run. -/
def digitsVal (ds : List Char) : Nat := ds.foldl (fun n c => 10 * n + (c.toNat - 48)) 0

/-- Integer part of a JSON number: `0` or a nonzero digit followed by
digits (the JSON grammar forbids leading zeros, so after `'0'` no further
digits are consumed). -/
def parseIntPart : List Char → Option (Nat × List Char)
  | [] => none
  | c :: rest =>
    if c = '0' then some (0, rest)
    else if c.isDigit then
      some (digitsVal ((c :: rest).takeWhile Char.isDigit), (c :: rest).dropWhile Char.isDigit)
    else none

/-- Optional fractional part `(\.\d+)?`: consumed only when a dot is
followed by at least one digit. -/
def parseFrac (cs : List Char) : (Nat × Nat) × List Char :=
  match cs with
  | '.' :: rest =>
    let ds := rest.takeWhile Char.isDigit
    if ds = [] then ((0, 0), cs)
    else ((digitsVal ds, ds.length), rest.dropWhile Char.isDigit)
  | _ => ((0, 0), cs)

/-- Optional exponent part `([eE][-+]?\d+)?`: consumed only when complete. -/
def parseExp (cs : List Char) : Int × List Char :=
  match cs with
  | c :: rest =>
    if c = 'e' ∨ c = 'E' then
      match rest with
      | '+' :: r2 =>
        let ds := r2.takeWhile Char.isDigit
        if ds = [] then (0, cs) else ((digitsVal ds : Int), r2.dropWhile Char.isDigit)
      | '-' :: r2 =>
        let ds := r2.takeWhile Char.isDigit
        if ds = [] then (0, cs) else (-(digitsVal ds : Int), r2.dropWhile Char.isDigit)
      | _ =>
        let ds := rest.takeWhile Char.isDigit
        if ds = [] then (0, cs) else ((digitsVal ds : Int), rest.dropWhile Char.isDigit)
    else (0, cs)
  | [] => (0, cs)

/-- Parse a JSON number starting at a `-` or digit. -/
def parseNum (cs : List Char) : Except String (Json × List Char) :=
  let signed := match cs with
    | '-' :: r => (true, r)
    | _ => (false, cs)
  match parseIntPart signed.2 with
  | none => .error "Expecting value"
  | some (i, cs2) =>
    let fr := parseFrac cs2
    let ex := parseExp fr.2
    if fr.1.2 = 0 ∧ ex.1 = 0 then
      .ok (.num (if signed.1 then -(i : ℚ) else (i : ℚ)), ex.2)
    else
      let mag : ℚ := ((i : ℚ) + (fr.1.1 : ℚ) / (10 : ℚ) ^ fr.1.2) * (10 : ℚ) ^ ex.1
      .ok (.num (if signed.1 then -mag else mag), ex.2)

mutual

/-- Parse one JSON value (model of Python's `json.loads` recursive-descent
scanner); `fuel` bounds recursion depth and exceeds any input's needs when
seeded with the input length. -/
def parseVal : Nat → List Char → Except String (Json × List Char)
  | 0, _ => .error "Expecting value"
  | fuel + 1, cs =>
    match skipWs cs with
    | [] => .error "Expecting value"
    | c :: rest =>
      if c = 'n' then
        match rest with
        | 'u' :: 'l' :: 'l' :: r => .ok (.null, r)
        | _ => .error "Expecting value"
      else if c = 't' then
        match rest with
        | 'r' :: 'u' :: 'e' :: r => .ok (.bool true, r)
        | _ => .error "Expecting value"
      else if c = 'f' then
        match rest with
        | 'a' :: 'l' :: 's' :: 'e' :: r => .ok (.bool false, r)
        | _ => .error "Expecting value"
      else if c = '"' then
        match parseStringBody rest with
        | some (content, r) => .ok (.str ⟨content⟩, r)
        | none => .error "Unterminated string"
      else if c = '[' then parseArrBody fuel (skipWs rest)
      else if c = '\x7b' then parseObjBody fuel (skipWs rest)
      else if c = '-' ∨ c.isDigit then parseNum (c :: rest)
      else .error "Expecting value"

/-- Parse an array body after `[` (positioned at the first element or `]`). -/
def parseArrBody : Nat → List Char → Except String (Json × List Char)
  | 0, _ => .error "Expecting value"
  | fuel + 1, cs =>
    match cs with
    | ']' :: r => .ok (.arr [], r)
    | _ =>
      match parseVal fuel cs with
      | .error e => .error e
      | .ok (j, r) => parseArrRest fuel [j] (skipWs r)

/-- Parse the remaining elements of an array after at least one element. -/
def parseArrRest : Nat → List Json → List Char → Except String (Json × List Char)
  | 0, _, _ => .error "Expecting value"
  | fuel + 1, acc, cs =>
    match cs with
    | ']' :: r => .ok (.arr acc.reverse, r)
    | ',' :: r =>
      match parseVal fuel r with
      | .error e => .error e
      | .ok (j, r2) => parseArrRest fuel (j :: acc) (skipWs r2)
    | _ => .error "Expecting comma delimiter"

/-- Parse an object body after the opening brace (positioned at the first
key or the closing brace). -/
def parseObjBody : Nat → List Char → Except String (Json × List Char)
  | 0, _ => .error "Expecting value"
  | fuel + 1, cs =>
    match cs with
    | '\x7d' :: r => .ok (.obj [], r)
    | '"' :: r =>
      match parseStringBody r with
      | none => .error "Unterminated string"
      | some (key, r1) =>
        match skipWs r1 with
        | ':' :: r2 =>
          match parseVal fuel r2 with
          | .error e => .error e
          | .ok (j, r3) => parseObjRest fuel [(⟨key⟩, j)] (skipWs r3)
        | _ => .error "Expecting colon delimiter"
    | _ => .error "Expecting property name"

/-- Parse the remaining members of an object after at least one member. -/
def parseObjRest : Nat → List (String × Json) → List Char → Except String (Json × List Char)
  | 0, _, _ => .error "Expecting value"
  | fuel + 1, acc, cs =>
    match cs with
    | '\x7d' :: r => .ok (.obj acc.reverse, r)
    | ',' :: r =>
      match skipWs r with
      | '"' :: r1 =>
        match parseStringBody r1 with
        | none => .error "Unterminated string"
        | some (key, r2) =>
          match skipWs r2 with
          | ':' :: r3 =>
            match parseVal fuel r3 with
            | .error e => .error e
            | .ok (j, r4) => parseObjRest fuel ((⟨key⟩, j) :: acc) (skipWs r4)
          | _ => .error "Expecting colon delimiter"
      | _ => .error "Expecting property name"
    | _ => .error "Expecting comma delimiter"

end

/-- Model of Python `json.loads`: parse one value and require only trailing
whitespace after it. -/
def jsonLoads (s : String) : Except String Json :=
  match parseVal (s.data.length + 1) s.data with
  | .error e => .error e
  | .ok (j, rest) => if skipWs rest = [] then .ok j else .error "Extra data"

/-- The fixed fallback record of `parse_code`
(`src/agents/code_parser_agent.py`, lines 75-82); its `line_count` is
`len(code.split('\n'))` of the original `code` argument. -/
def fallbackRecord (code : String) : Json :=
  .obj [("functions", .arr []),
        ("variables", .arr []),
        ("line_count", .num ((pySplitNl code.data).length : ℚ)),
        ("complexity", .str "unknown"),
        ("potential_issues", .arr []),
        ("code_summary", .str "Unable to parse code structure")]

/-- The fence-stripping sequence of `parse_code`
(`src/agents/code_parser_agent.py`, lines 60-67), translated statement by
statement: strip, conditionally drop a leading tagged fence, conditionally
drop a leading plain fence, conditionally drop a trailing fence, strip. -/
def stripFences (response : String) : String :=
  let r := pyStrip response
  let r := if pyStartsWith r "```json" then pyDrop 7 r else r
  let r := if pyStartsWith r "```" then pyDrop 3 r else r
  let r := if pyEndsWith r "```" then pyDropRight 3 r else r
  pyStrip r

/-- The spec-side description of the first strip: remove a leading
tagged-fence marker when present. -/
def stripTaggedMarker (s : String) : String :=
  if pyStartsWith s "```json" then pyDrop 7 s else s

/-- The spec-side description of the second strip: remove a leading plain
triple-fence marker when present. -/
def stripPlainMarker (s : String) : String :=
  if pyStartsWith s "```" then pyDrop 3 s else s

/-- The spec-side description of the third strip: remove a trailing
triple-fence marker when present. -/
def stripTrailingMarker (s : String) : String :=
  if pyEndsWith s "```" then pyDropRight 3 s else s

/-- `parse_code` (`src/agents/code_parser_agent.py`, lines 28-85).  The
text-generation call is the `invokeResponse` parameter: `Except.error`
models it raising (re-raised by the source's final `except Exception`),
`Except.ok` its returned text.  A `json.JSONDecodeError` from the decode of
the fence-stripped response is caught and degraded to `fallbackRecord`;
the successfully decoded value is returned as-is. -/
def parse_code (code : String) (invokeResponse : Except String String) : Except String Json :=
  match invokeResponse with
  | .error e => .error e
  | .ok response =>
    match jsonLoads (stripFences response) with
    | .ok parsed => .ok parsed
    | .error _ => .ok (fallbackRecord code)


/-- Spec-side description of the queries one bug entry contributes, in
generation order: the domain-qualified query and the example query when
`bug_type` is non-empty, then the 100-character-truncated description when
`description` is non-empty. -/
def perBugCandidates (bug : BugEntry) : List String :=
  (if bug.bug_type.getD "" ≠ "" then
      ["C++ " ++ bug.bug_type.getD "", bug.bug_type.getD "" ++ " bug example"]
    else [])
  ++ (if bug.description.getD "" ≠ "" then [pyTake 100 (bug.description.getD "")] else [])

/-- Spec-side description of the keyword-query contribution: the stripped
collaborator text on success, nothing on failure. -/
def keywordCandidates (invokeTerms : Except String String) : List String :=
  match invokeTerms with
  | .ok terms => [pyStrip terms]
  | .error _ => []

/-- Spec-side description of the full candidate list in generation order:
per-bug queries for the first three bugs, then the generic fallback, then
the keyword query. -/
def candidateQueries (bug_info : BugInfo) (invokeTerms : Except String String) : List String :=
  ((bug_info.bugs_found.getD []).take 3).flatMap perBugCandidates
    ++ ["C++ common bugs"] ++ keywordCandidates invokeTerms

/-- The search loop leaves the accumulator unchanged when every search call
fails. -/
theorem collectResults_of_all_error (search : String → Except String (List Doc))
    (h : ∀ q, ∃ e, search q = Except.error e) :
    ∀ (qs : List String) (acc : List Doc), collectResults search qs acc = acc := by
  intro qs
  induction qs with
  | nil => intro acc; rfl
  | cons q qs ih =>
    intro acc
    obtain ⟨e, he⟩ := h q
    simp [collectResults, he, ih]

/-- C1: if every `DocumentIndexClient.search` call raises, then
`retrieve_bug_context` does not raise (it is a total function of its
collaborators' outcomes) and returns an empty document list, the sentinel
synthesis text, and `total_documents_found = 0`. -/
theorem C1_retrieve_total_failure (code : String) (bug_info : BugInfo)
    (invokeTerms : Except String String) (search : String → Except String (List Doc))
    (h : ∀ q, ∃ e, search q = Except.error e) :
    retrieve_bug_context code bug_info invokeTerms search =
      ⟨[], sentinel, 0⟩ := by
  simp only [retrieve_bug_context]
  rw [collectResults_of_all_error search h]
  rfl

/-- C1 witness: a concrete run in which the index client always raises. -/
theorem C1_witness :
    retrieve_bug_context "int x = *p;" ⟨some []⟩ (Except.error "llm unavailable")
        (fun _ => Except.error "index down") = ⟨[], sentinel, 0⟩ :=
  C1_retrieve_total_failure _ _ _ _ (fun _ => ⟨"index down", rfl⟩)

/-- Every document kept by the dedupe loop has a fingerprint outside `seen`,
and is the first entry of the input carrying its fingerprint. -/
theorem dedupeAux_mem_spec : ∀ (l : List Doc) (seen : List String) (d : Doc),
    d ∈ dedupeAux l seen →
    fingerprint d ∉ seen ∧
      ∃ l₁ l₂, l = l₁ ++ d :: l₂ ∧ ∀ x ∈ l₁, fingerprint x ≠ fingerprint d := by
  intro l
  induction l with
  | nil => intro seen d hd; simp [dedupeAux] at hd
  | cons r rest ih =>
    intro seen d hd
    by_cases hfp : fingerprint r ∈ seen
    · rw [dedupeAux, if_pos hfp] at hd
      obtain ⟨hns, l₁, l₂, heq, hpref⟩ := ih seen d hd
      refine ⟨hns, r :: l₁, l₂, by rw [heq]; rfl, ?_⟩
      intro x hx
      rcases List.mem_cons.mp hx with hxr | hxl
      · subst hxr; exact fun hcontra => hns (hcontra ▸ hfp)
      · exact hpref x hxl
    · rw [dedupeAux, if_neg hfp] at hd
      rcases List.mem_cons.mp hd with hdr | hdm
      · subst hdr; exact ⟨hfp, [], rest, rfl, by simp⟩
      · obtain ⟨hns, l₁, l₂, heq, hpref⟩ := ih _ d hdm
        have hne : fingerprint d ≠ fingerprint r := by
          intro hc
          exact hns (by rw [hc]; exact List.mem_cons_self _ _)
        refine ⟨fun hc => hns (List.mem_cons_of_mem _ hc), r :: l₁, l₂, by rw [heq]; rfl, ?_⟩
        intro x hx
        rcases List.mem_cons.mp hx with hxr | hxl
        · subst hxr; exact fun hc => hne hc.symm
        · exact hpref x hxl

/-- The dedupe loop never keeps two documents with the same fingerprint. -/
theorem dedupeAux_pairwise : ∀ (l : List Doc) (seen : List String),
    (dedupeAux l seen).Pairwise (fun a b => fingerprint a ≠ fingerprint b) := by
  intro l
  induction l with
  | nil => intro seen; simp [dedupeAux]
  | cons r rest ih =>
    intro seen
    by_cases hfp : fingerprint r ∈ seen
    · rw [dedupeAux, if_pos hfp]; exact ih seen
    · rw [dedupeAux, if_neg hfp]
      refine List.Pairwise.cons ?_ (ih _)
      intro b hb
      have hnb := (dedupeAux_mem_spec rest (fingerprint r :: seen) b hb).1
      exact fun hc => hnb (by rw [← hc]; exact List.mem_cons_self _ _)

/-- Two documents with the same text share a fingerprint, so the dedupe loop
keeps only the first, whatever the two scores are. -/
theorem dedupe_pair_shared_text (t : String) (s1 s2 : Option ℚ) :
    dedupe [⟨some t, s1⟩, ⟨some t, s2⟩] = [⟨some t, s1⟩] := by
  simp [dedupe, dedupeAux, fingerprint, getText]

/-- C4: deduplication output contains no two documents with equal
200-character-prefix fingerprints; every retained document is the
first-seen one with its fingerprint in input order; and on the spec's
scenario of two documents sharing a fingerprint with scores 0.9 (first)
and 0.95 (second), the first-seen 0.9 document is the one retained even
though its score is strictly lower. -/
theorem C4_dedupe_first_wins (results : List Doc) :
    (dedupe results).Pairwise (fun a b => fingerprint a ≠ fingerprint b) ∧
    (∀ d ∈ dedupe results,
        ∃ l₁ l₂, results = l₁ ++ d :: l₂ ∧ ∀ x ∈ l₁, fingerprint x ≠ fingerprint d) ∧
    dedupe [⟨some "shared prefix text", some (9/10)⟩,
            ⟨some "shared prefix text", some (19/20)⟩]
      = [⟨some "shared prefix text", some (9/10)⟩] ∧
    (9 : ℚ)/10 < 19/20 := by
  refine ⟨dedupeAux_pairwise results [], ?_, dedupe_pair_shared_text _ _ _, by norm_num⟩
  intro d hd
  exact (dedupeAux_mem_spec results [] d hd).2

/-- C4 witness: the first-seen characterization instantiated on a concrete
singleton input. -/
theorem C4_witness :
    ∃ l₁ l₂, [(⟨some "w", some 1⟩ : Doc)] = l₁ ++ (⟨some "w", some 1⟩ : Doc) :: l₂ ∧
      ∀ x ∈ l₁, fingerprint x ≠ fingerprint (⟨some "w", some 1⟩ : Doc) :=
  (C4_dedupe_first_wins [⟨some "w", some 1⟩]).2.1 ⟨some "w", some 1⟩ (by decide)

/-- C5: the sort step returns a list whose scores are non-increasing, is a
permutation of its input, keeps the relative input order of equal-score
documents (any equal-score subsequence of the input is still a subsequence
of the output), and orders a document missing a score exactly as if its
score were `0` (`getScore` defaults to `0` and replacing every missing
score by an explicit `0` commutes with ranking). -/
theorem C5_rank_sorted_stable (l : List Doc) :
    (rank l).Pairwise (fun a b => getScore b ≤ getScore a) ∧
    List.Perm (rank l) l ∧
    (∀ c : List Doc, List.Sublist c l →
        (∀ a ∈ c, ∀ b ∈ c, getScore a = getScore b) → List.Sublist c (rank l)) ∧
    (∀ t : Option String, getScore ⟨t, none⟩ = 0) ∧
    rank (l.map withExplicitScore) = (rank l).map withExplicitScore := by
  refine ⟨List.sorted_insertionSort scoreGE l, List.perm_insertionSort scoreGE l, ?_,
    fun _ => rfl, ?_⟩
  · intro c hc heq
    exact List.sublist_insertionSort
      (List.pairwise_of_forall_mem_list fun a ha b hb => le_of_eq (heq a ha b hb).symm) hc
  · exact (List.map_insertionSort scoreGE scoreGE withExplicitScore l
      fun a _ b _ => Iff.rfl).symm

/-- C5 witness: stability instantiated on two equal-score documents. -/
theorem C5_witness :
    List.Sublist [(⟨some "a", some 1⟩ : Doc), ⟨some "b", some 1⟩]
      (rank [⟨some "a", some 1⟩, ⟨some "b", some 1⟩]) :=
  (C5_rank_sorted_stable _).2.2.1 _ (List.Sublist.refl _) (by decide)

/-- C10: synthesis only reads the first three ranked documents, so feeding
the full ranked list is the same as feeding its first five documents; in
particular `retrieve_bug_context`'s synthesized context equals the
synthesis of its own (at most five) returned documents. -/
theorem C10_synthesis_within_returned :
    (∀ xs : List Doc, _synthesize_context xs = _synthesize_context (xs.take 5)) ∧
    (∀ (code : String) (bug_info : BugInfo) (invokeTerms : Except String String)
        (search : String → Except String (List Doc)),
      (retrieve_bug_context code bug_info invokeTerms search).synthesized_context =
        _synthesize_context
          ((retrieve_bug_context code bug_info invokeTerms search).retrieved_documents)) := by
  have h1 : ∀ xs : List Doc, _synthesize_context xs = _synthesize_context (xs.take 5) := by
    intro xs
    cases xs with
    | nil => rfl
    | cons d rest =>
      show _synthesize_context (d :: rest) = _synthesize_context (d :: rest.take 4)
      unfold _synthesize_context
      simp [List.take_succ_cons, List.take_take]
  exact ⟨h1, fun code bug_info invokeTerms search => h1 _⟩

/-- One iteration of the query-building loop appends exactly one bug's
candidates. -/
theorem genQueries_step (acc : List String) (bug : BugEntry) :
    (let bug_type := bug.bug_type.getD ""
     let description := bug.description.getD ""
     let qs := if bug_type ≠ "" then acc ++ ["C++ " ++ bug_type, bug_type ++ " bug example"]
               else acc
     if description ≠ "" then qs ++ [pyTake 100 description] else qs)
    = acc ++ perBugCandidates bug := by
  by_cases h1 : bug.bug_type.getD "" ≠ "" <;> by_cases h2 : bug.description.getD "" ≠ "" <;>
    simp [perBugCandidates, h1, h2]

/-- The query-building loop over bug entries equals appending the flattened
per-bug candidates. -/
theorem genQueries_fold_eq (bugs : List BugEntry) :
    ∀ acc : List String,
      bugs.foldl (fun qs bug =>
        let bug_type := bug.bug_type.getD ""
        let description := bug.description.getD ""
        let qs := if bug_type ≠ "" then qs ++ ["C++ " ++ bug_type, bug_type ++ " bug example"]
                  else qs
        if description ≠ "" then qs ++ [pyTake 100 description] else qs) acc
      = acc ++ bugs.flatMap perBugCandidates := by
  induction bugs with
  | nil => intro acc; simp
  | cons b bs ih =>
    intro acc
    rw [List.foldl_cons, genQueries_step acc b, ih, List.flatMap_cons, List.append_assoc]

/-- `_generate_search_queries` returns the first five spec-side candidates
in generation order. -/
theorem genQueries_eq_candidates (code : String) (bi : BugInfo) (inv : Except String String) :
    _generate_search_queries code bi inv = (candidateQueries bi inv).take 5 := by
  simp only [_generate_search_queries, candidateQueries, keywordCandidates]
  rw [genQueries_fold_eq]
  cases inv with
  | ok t => simp
  | error e => simp

/-- A string of positive length is not the empty string. -/
theorem ne_empty_of_length_pos {s : String} (h : 0 < s.length) : s ≠ "" := by
  intro he
  rw [he] at h
  simp at h

/-- A non-empty string has positive length. -/
theorem length_pos_of_ne_empty {s : String} (h : s ≠ "") : 0 < s.length := by
  cases s with
  | mk data =>
    cases data with
    | nil => exact absurd rfl h
    | cons c cs => simp [String.length]

/-- Every candidate query contributed by a bug entry is non-empty. -/
theorem mem_perBugCandidates_ne_empty (bug : BugEntry) (q : String)
    (hq : q ∈ perBugCandidates bug) : q ≠ "" := by
  unfold perBugCandidates at hq
  rcases List.mem_append.mp hq with h | h
  · by_cases hbt : bug.bug_type.getD "" ≠ ""
    · rw [if_pos hbt] at h
      rcases List.mem_cons.mp h with he | h2
      · subst he
        refine ne_empty_of_length_pos ?_
        have h4 : ("C++ " : String).length = 4 := rfl
        rw [String.length_append, h4]
        omega
      · have he : q = bug.bug_type.getD "" ++ " bug example" := by simpa using h2
        subst he
        refine ne_empty_of_length_pos ?_
        have : (" bug example" : String).length = 12 := rfl
        simp [String.length_append, this]
    · rw [if_neg hbt] at h
      simp at h
  · by_cases hd : bug.description.getD "" ≠ ""
    · rw [if_pos hd] at h
      have he : q = pyTake 100 (bug.description.getD "") := by simpa using h
      subst he
      refine ne_empty_of_length_pos ?_
      have hp := length_pos_of_ne_empty hd
      simp only [pyTake, String.length_mk, List.length_take]
      have : 0 < (bug.description.getD "").data.length := hp
      omega
    · rw [if_neg hd] at h
      simp at h

/-- C6 counterexample: with no bugs found and the keyword collaborator
successfully returning whitespace-only text, the planner emits the empty
string as its second query, refuting "every returned query is a non-empty
string". -/
theorem C6_counterexample :
    "" ∈ _generate_search_queries "int main()" ⟨some []⟩ (Except.ok " \n ") ∧
    String.length "" = 0 :=
  ⟨by decide, rfl⟩

/-- C6 (amended): the planner always returns between 1 and 5 queries
inclusive, and every returned query is non-empty provided the keyword
extraction either fails or returns text that is not whitespace-only (the
source appends the stripped collaborator text unconditionally on success,
so whitespace-only text contributes an empty query). -/
theorem C6_planner_bounds (code : String) (bi : BugInfo) (inv : Except String String) :
    1 ≤ (_generate_search_queries code bi inv).length ∧
    (_generate_search_queries code bi inv).length ≤ 5 ∧
    ((∀ t, inv = Except.ok t → pyStrip t ≠ "") →
      ∀ q ∈ _generate_search_queries code bi inv, q ≠ "") := by
  rw [genQueries_eq_candidates]
  have hlen : 1 ≤ (candidateQueries bi inv).length := by
    unfold candidateQueries
    have h1 : (["C++ common bugs"] : List String).length = 1 := rfl
    rw [List.length_append, List.length_append, h1]
    omega
  refine ⟨?_, ?_, ?_⟩
  · rw [List.length_take]
    omega
  · rw [List.length_take]
    omega
  · intro hkw q hq
    have hq2 : q ∈ candidateQueries bi inv := List.mem_of_mem_take hq
    unfold candidateQueries at hq2
    rcases List.mem_append.mp hq2 with h | hkwm
    · rcases List.mem_append.mp h with hA | hg
      · obtain ⟨bug, _, hb⟩ := List.mem_flatMap.mp hA
        exact mem_perBugCandidates_ne_empty _ _ hb
      · have : q = "C++ common bugs" := by simpa using hg
        subst this
        decide
    · cases inv with
      | error e => simp [keywordCandidates] at hkwm
      | ok t =>
        have : q = pyStrip t := by simpa [keywordCandidates] using hkwm
        subst this
        exact hkw t rfl

/-- C6 witness: the amended theorem instantiated with a failing keyword
collaborator and the generic query. -/
theorem C6_witness : ("C++ common bugs" : String) ≠ "" :=
  (C6_planner_bounds "int f();" ⟨none⟩ (Except.error "down")).2.2
    (fun _ ht => by cases ht) "C++ common bugs" (by decide)

/-- C7: the planner emits candidates in generation order (per-bug
domain-qualified, example, and truncated-description queries for the first
three bugs, then the generic fallback, then the keyword query) and returns
the first five; on the spec's scenario (one use-after-free bug, keyword
extraction failing) the output is exactly the four expected queries; and
when the bug-derived candidates alone number at least five, the output is
their first five, so the generic fallback is dropped. -/
theorem C7_candidate_order :
    (∀ (code : String) (bi : BugInfo) (inv : Except String String),
        _generate_search_queries code bi inv = (candidateQueries bi inv).take 5) ∧
    _generate_search_queries "void f(int* p)"
        ⟨some [⟨some "use-after-free", some "pointer freed then dereferenced in loop"⟩]⟩
        (Except.error "keyword extraction failed")
      = ["C++ use-after-free", "use-after-free bug example",
         "pointer freed then dereferenced in loop", "C++ common bugs"] ∧
    (∀ (code : String) (bi : BugInfo) (inv : Except String String),
        5 ≤ (((bi.bugs_found.getD []).take 3).flatMap perBugCandidates).length →
        _generate_search_queries code bi inv
          = (((bi.bugs_found.getD []).take 3).flatMap perBugCandidates).take 5) := by
  refine ⟨genQueries_eq_candidates, by decide, ?_⟩
  intro code bi inv h5
  rw [genQueries_eq_candidates]
  unfold candidateQueries
  rw [List.append_assoc, List.take_append_of_le_length h5]

/-- C7 witness: with two bugs contributing six candidates, the output is the
first five bug-derived candidates. -/
theorem C7_witness :
    _generate_search_queries "c" ⟨some [⟨some "a", some "d"⟩, ⟨some "b", some "e"⟩]⟩
        (Except.ok "kw")
      = ((((BugInfo.mk (some [⟨some "a", some "d"⟩, ⟨some "b", some "e"⟩])).bugs_found.getD
            []).take 3).flatMap perBugCandidates).take 5 :=
  C7_candidate_order.2.2 "c" _ _ (by decide)

/-- The newline split never produces an empty list of segments. -/
theorem pySplitNl_ne_nil : ∀ cs : List Char, pySplitNl cs ≠ [] := by
  intro cs
  cases cs with
  | nil => simp [pySplitNl]
  | cons c rest =>
    rw [pySplitNl]
    by_cases hc : c = '\n'
    · simp [hc]
    · cases hps : pySplitNl rest <;> simp [hc, hps]

/-- The number of newline-delimited segments is the newline count plus
one. -/
theorem pySplitNl_length : ∀ cs : List Char,
    (pySplitNl cs).length = (cs.filter (fun c => c = '\n')).length + 1 := by
  intro cs
  induction cs with
  | nil => rfl
  | cons c rest ih =>
    by_cases hc : c = '\n'
    · subst hc
      simp [pySplitNl, ih]
    · cases hps : pySplitNl rest with
      | nil => exact absurd hps (pySplitNl_ne_nil rest)
      | cons seg segs =>
        rw [hps] at ih
        simp only [pySplitNl, if_neg hc, hps, List.length_cons]
        rw [List.filter_cons_of_neg (by simpa using hc)]
        simpa using ih

/-- C2 counterexample: on code `"a\nb\nc"` (two newlines) and the
unparseable response `"not json at all"`, the fallback record's
`line_count` is `3` (the number of newline-delimited lines of the code),
not the code's newline-count `2` as the claim states. -/
theorem C2_counterexample :
    parse_code "a\nb\nc" (Except.ok "not json at all") = Except.ok (fallbackRecord "a\nb\nc") ∧
    fallbackRecord "a\nb\nc"
      = Json.obj [("functions", Json.arr []), ("variables", Json.arr []),
                  ("line_count", Json.num 3), ("complexity", Json.str "unknown"),
                  ("potential_issues", Json.arr []),
                  ("code_summary", Json.str "Unable to parse code structure")] ∧
    countNewlines "a\nb\nc" = 2 ∧ (3 : ℚ) ≠ (2 : ℚ) := by
  refine ⟨rfl, rfl, rfl, by norm_num⟩

/-- C2 (amended): on any code string and the structurally unparseable
response `"not json at all"`, `parse_code` returns (without raising) the
fallback record with empty `functions`, `variables` and `potential_issues`
lists, `complexity = "unknown"`, the fixed summary, and `line_count` equal
to one plus the newline-count of the original code argument (the number of
newline-delimited lines), not of the bad response. -/
theorem C2_fallback_record (code : String) :
    parse_code code (Except.ok "not json at all")
      = Except.ok (Json.obj
          [("functions", Json.arr []), ("variables", Json.arr []),
           ("line_count", Json.num ((countNewlines code : ℚ) + 1)),
           ("complexity", Json.str "unknown"),
           ("potential_issues", Json.arr []),
           ("code_summary", Json.str "Unable to parse code structure")]) := by
  have h2 : (pySplitNl code.data).length = countNewlines code + 1 :=
    pySplitNl_length code.data
  have hcast : ((pySplitNl code.data).length : ℚ) = (countNewlines code : ℚ) + 1 := by
    rw [h2]
    push_cast
    ring
  have hpc : parse_code code (Except.ok "not json at all") = Except.ok (fallbackRecord code) := by
    simp only [parse_code]
    rw [show jsonLoads (stripFences "not json at all") = Except.error "Expecting value" from rfl]
  rw [hpc]
  simp only [fallbackRecord, hcast]

/-- C3: `parse_code` raises exactly when something other than a structural
JSON-decode failure occurs: an exception from the text-generation call
propagates to the caller unchanged, while a successful call never makes
`parse_code` raise — a decode failure is degraded to the fallback record
and a decoded value is returned as-is. -/
theorem C3_error_paths :
    (∀ code e : String, parse_code code (Except.error e) = Except.error e) ∧
    (∀ code response : String, ∃ j, parse_code code (Except.ok response) = Except.ok j) ∧
    (∀ code response : String,
        (∀ j, jsonLoads (stripFences response) ≠ Except.ok j) →
        parse_code code (Except.ok response) = Except.ok (fallbackRecord code)) ∧
    (∀ (code response : String) (j : Json),
        jsonLoads (stripFences response) = Except.ok j →
        parse_code code (Except.ok response) = Except.ok j) := by
  refine ⟨fun code e => rfl, ?_, ?_, ?_⟩
  · intro code response
    simp only [parse_code]
    cases h : jsonLoads (stripFences response) with
    | ok j => exact ⟨j, rfl⟩
    | error e => exact ⟨fallbackRecord code, rfl⟩
  · intro code response hne
    simp only [parse_code]
    cases h : jsonLoads (stripFences response) with
    | ok j => exact absurd h (hne j)
    | error e => rfl
  · intro code response j hj
    simp only [parse_code]
    rw [hj]

/-- C3 witness: a decodable response is returned as parsed, not degraded. -/
theorem C3_witness : parse_code "int x;" (Except.ok "7") = Except.ok (Json.num 7) :=
  C3_error_paths.2.2.2 "int x;" "7" (Json.num 7) rfl

/-- C9: the fence handling is three independent sequential conditional
strips (tagged leading marker, then plain leading marker, then trailing
marker, between two whitespace strips), and on a response such as
`"```json```[1]```"` both leading strips fire, removing the first marker
region twice; the trailing strip fires independently of the leading ones. -/
theorem C9_fence_strips :
    (∀ r : String, stripFences r
        = pyStrip (stripTrailingMarker (stripPlainMarker (stripTaggedMarker (pyStrip r))))) ∧
    pyStartsWith (pyStrip "```json```[1]```") "```json" = true ∧
    pyStartsWith (stripTaggedMarker (pyStrip "```json```[1]```")) "```" = true ∧
    stripTaggedMarker (pyStrip "```json```[1]```") = "```[1]```" ∧
    stripPlainMarker "```[1]```" = "[1]```" ∧
    stripTrailingMarker "[1]```" = "[1]" ∧
    stripFences "```json```[1]```" = "[1]" ∧
    stripFences "response text```" = "response text" ∧
    stripFences "```jsonfoo" = "foo" := by
  refine ⟨fun r => rfl, ?_, ?_, ?_, ?_, ?_, ?_, ?_, ?_⟩ <;> decide

/-- A 300-character slice has length at most 300. -/
theorem pyTake_length_le (n : Nat) (s : String) : (pyTake n s).length ≤ n := by
  simp only [pyTake, String.length_mk, List.length_take]
  omega

/-- The zero-padded fraction always renders as two characters. -/
theorem twoFrac_length : ∀ m, m < 100 → (twoFrac m).length = 2 := by decide

/-- A natural number of at most one digit renders as one character. -/
theorem natRepr_length_one : ∀ m, m ≤ 1 → (toString m).length = 1 := by decide

/-- A score in `[0, 1]` always formats as four characters (`x.yz`). -/
theorem formatScore_length (q : ℚ) (h0 : 0 ≤ q) (h1 : q ≤ 1) :
    (formatScore q).length = 4 := by
  simp only [formatScore]
  rw [abs_of_nonneg h0, if_neg (not_lt.mpr h0)]
  have hr : round (q * 100) ≤ 100 := by
    rw [round_eq]
    have hle : ⌊q * 100 + 1 / 2⌋ ≤ ⌊(100 : ℚ) + 1 / 2⌋ := Int.floor_le_floor (by linarith)
    have h2 : ⌊(100 : ℚ) + 1 / 2⌋ = 100 := by
      rw [show ((100 : ℚ) + 1 / 2) = ((100 : ℤ) : ℚ) + 1 / 2 by norm_num,
        Int.floor_int_add]
      norm_num [Int.floor_eq_zero_iff]
    omega
  have hn : (round (q * 100)).toNat ≤ 100 := Int.toNat_le.mpr hr
  have hdiv : (round (q * 100)).toNat / 100 ≤ 1 := by omega
  have hmod : (round (q * 100)).toNat % 100 < 100 := Nat.mod_lt _ (by norm_num)
  rw [String.length_append, String.length_append, String.length_append,
    natRepr_length_one _ hdiv, twoFrac_length _ hmod]
  rfl

/-- A rendered block with a one-digit position label and a score in `[0, 1]`
has length at most 333 (29 fixed characters, a 4-character score, and at
most 300 text characters). -/
theorem docBlock_length_le (i : Nat) (hi : (toString i).length = 1) (d : Doc)
    (h0 : 0 ≤ getScore d) (h1 : getScore d ≤ 1) : (docBlock i d).length ≤ 333 := by
  have hf := formatScore_length (getScore d) h0 h1
  have hp : (pyTake 300 (getText d)).length ≤ 300 := pyTake_length_le 300 _
  have l1 : ("[Document " : String).length = 10 := rfl
  have l2 : (", relevance: " : String).length = 13 := rfl
  have l3 : ("]\n" : String).length = 2 := rfl
  have l4 : ("..." : String).length = 3 := rfl
  simp only [docBlock, String.length_append, hi, hf, l1, l2, l3, l4]
  omega

/-- C8: on the empty ranked list the synthesizer returns exactly the
sentinel string; otherwise it renders only the top three documents, each as
a block carrying its 1-based position, its two-decimal score and the first
300 characters of its text followed by the `"..."` truncation marker,
joined by blank-line separators; and for normalized relevance scores in
`[0, 1]` the total output length is at most three blocks of 300 text
characters plus 33 label characters each, plus two 2-character
separators. -/
theorem C8_synthesis_format_and_bound :
    _synthesize_context [] = sentinel ∧
    (∀ d1 : Doc, _synthesize_context [d1] = docBlock 1 d1) ∧
    (∀ d1 d2 : Doc, _synthesize_context [d1, d2] = docBlock 1 d1 ++ "\n\n" ++ docBlock 2 d2) ∧
    (∀ (d1 d2 d3 : Doc) (rest : List Doc),
        _synthesize_context (d1 :: d2 :: d3 :: rest)
          = docBlock 1 d1 ++ "\n\n" ++ (docBlock 2 d2 ++ "\n\n" ++ docBlock 3 d3)) ∧
    (∀ (i : Nat) (d : Doc),
        docBlock i d = "[Document " ++ toString i ++ ", relevance: "
          ++ formatScore (getScore d) ++ "]\n" ++ pyTake 300 (getText d) ++ "...") ∧
    (∀ xs : List Doc, (∀ d ∈ xs, 0 ≤ getScore d ∧ getScore d ≤ 1) →
        (_synthesize_context xs).length ≤ 3 * (300 + 33) + 2 * 2) := by
  have hsep : ("\n\n" : String).length = 2 := rfl
  refine ⟨rfl, fun d1 => rfl, fun d1 d2 => rfl, fun d1 d2 d3 rest => rfl,
    fun i d => rfl, ?_⟩
  intro xs h
  cases xs with
  | nil => decide
  | cons d1 t1 =>
    cases t1 with
    | nil =>
      have b1 := docBlock_length_le 1 rfl d1 (h d1 (by simp)).1 (h d1 (by simp)).2
      have e : _synthesize_context [d1] = docBlock 1 d1 := rfl
      rw [e]
      omega
    | cons d2 t2 =>
      cases t2 with
      | nil =>
        have b1 := docBlock_length_le 1 rfl d1 (h d1 (by simp)).1 (h d1 (by simp)).2
        have b2 := docBlock_length_le 2 rfl d2 (h d2 (by simp)).1 (h d2 (by simp)).2
        have e : _synthesize_context [d1, d2] = docBlock 1 d1 ++ "\n\n" ++ docBlock 2 d2 := rfl
        rw [e, String.length_append, String.length_append, hsep]
        omega
      | cons d3 t3 =>
        have b1 := docBlock_length_le 1 rfl d1 (h d1 (by simp)).1 (h d1 (by simp)).2
        have b2 := docBlock_length_le 2 rfl d2 (h d2 (by simp)).1 (h d2 (by simp)).2
        have b3 := docBlock_length_le 3 rfl d3 (h d3 (by simp)).1 (h d3 (by simp)).2
        have e : _synthesize_context (d1 :: d2 :: d3 :: t3)
            = docBlock 1 d1 ++ "\n\n" ++ (docBlock 2 d2 ++ "\n\n" ++ docBlock 3 d3) := rfl
        rw [e, String.length_append, String.length_append, String.length_append,
          String.length_append, hsep]
        omega

/-- C8 witness: the length bound instantiated on a concrete document list
with a score inside `[0, 1]`. -/
theorem C8_witness :
    (_synthesize_context [⟨some "hello world", some 1⟩]).length ≤ 3 * (300 + 33) + 2 * 2 :=
  C8_synthesis_format_and_bound.2.2.2.2.2 [⟨some "hello world", some 1⟩] (by decide)
